import Mathlib

/-!
Verification development for the YepCode MCP server's tool registry and
dispatch layer (src/server.ts and src/tools/*-tool-definitions.ts).

The TypeScript source is shallowly embedded: JSON values are an inductive
type, the remote API client (an external collaborator per the spec) is a
record of abstract functions, callback-style notifications from the
code-run primitive are an explicit event list, and JSON.stringify is
modelled as the identity embedding of the JSON payload into the result
envelope's text slot (the claims are about the serialized payload's
fields, which serialization preserves).
-/

/-- JSON values (the untyped data crossing the MCP transport and the
remote API client boundary). Numbers are modelled as integers; no claim
concerns floating point. -/
inductive Json where
  | null : Json
  | bool (b : Bool) : Json
  | num (n : Int) : Json
  | str (s : String) : Json
  | arr (elems : List Json) : Json
  | obj (fields : List (String × Json)) : Json

/-- JavaScript truthiness of a JSON value, as used by the source's
spread-with-guard idiom, e.g. the spread of (execution.returnValue && ...)
in executionResult: null, false, 0 and the empty string are falsy. -/
def Json.truthy : Json → Bool
  | .null => false
  | .bool b => b
  | .num n => n != 0
  | .str s => s != ""
  | .arr _ => true
  | .obj _ => true

/-- JavaScript truthiness of a possibly-undefined value (none models
undefined, which is falsy). -/
def jsTruthy : Option Json → Bool
  | none => false
  | some v => v.truthy

/-- Field lookup in a JSON object literal, first occurrence wins. -/
def lookupField (fields : List (String × Json)) (key : String) : Option Json :=
  (fields.find? (fun f => f.1 == key)).map (fun f => f.2)

/-- Whether a JSON value is an object carrying the given key. -/
def Json.hasKey : Json → String → Bool
  | .obj fields, key => fields.any (fun f => f.1 == key)
  | _, _ => false

/-- A log entry emitted by a remote execution (the Log type of the
collaborator library: timestamp, level, message). -/
structure Log where
  timestamp : String
  level : String
  message : String

/-- The JSON shape of a log entry as it is serialized into results. -/
def Log.toJson (l : Log) : Json :=
  .obj [("timestamp", .str l.timestamp), ("level", .str l.level),
        ("message", .str l.message)]

/-- A remotely-defined process as returned by the processes listing
(id, slug, name, description, tags, optional parameters schema). -/
structure Process where
  id : String
  slug : String
  name : String
  description : Option String
  tags : List String
  parametersSchema : Option Json

/-- Source constant RUN_PROCESS_TOOL_NAME_PREFIX (src/server.ts): the
reserved name prelude for process-derived tools. -/
def RUN_PROCESS_TOOL_NAME_START : String := "yc_"

/-- Source constant RUN_PROCESS_TOOL_TAG: the fixed tag opting a process
into exposure. -/
def RUN_PROCESS_TOOL_TAG : String := "mcp-tool"

/-- Source constant RUN_CODE_TOOL_TAG. -/
def RUN_CODE_TOOL_TAG : String := "run_code"

/-- Source constant API_TOOL_TAG. -/
def API_TOOL_TAG : String := "yc_api"

/-- Source constant DEFAULT_TOOL_TAGS, the constructor default for the
tools selection. -/
def DEFAULT_TOOL_TAGS : List String := [RUN_CODE_TOOL_TAG, RUN_PROCESS_TOOL_TAG]

/-- Names of storageToolDefinitions, in array order
(src/tools/storage-tool-definitions.ts). -/
def storageToolDefinitionNames : List String :=
  ["get_storage_objects", "upload_storage_object", "download_storage_object",
   "delete_storage_object"]

/-- Names of variablesToolDefinitions, in array order. -/
def variablesToolDefinitionNames : List String :=
  ["get_variables", "create_variable", "update_variable", "delete_variable"]

/-- Names of schedulesToolDefinitions, in array order. -/
def schedulesToolDefinitionNames : List String :=
  ["get_schedules", "get_schedule", "pause_schedule", "resume_schedule",
   "delete_schedule", "update_schedule"]

/-- Names of processesToolDefinitions, in array order. -/
def processesToolDefinitionNames : List String :=
  ["get_processes", "create_process", "get_process", "update_process",
   "delete_process", "execute_process_async", "execute_process_sync",
   "schedule_process"]

/-- Names of executionsToolDefinitions, in array order. -/
def executionsToolDefinitionNames : List String :=
  ["get_executions", "get_execution", "kill_execution", "rerun_execution",
   "get_execution_logs"]

/-- Names of modulesToolDefinitions, in array order. The version and
alias tools live in the separate modulesWithVersionsToolDefinitions
array, which setupToolHandlers never pushes, so they are not part of the
catalog. -/
def modulesToolDefinitionNames : List String :=
  ["get_modules", "create_module", "get_module", "update_module",
   "delete_module"]

/-- The one name of runCodeToolDefinitions (runCodeToolNames.runCode). -/
def runCodeToolName : String := "run_code"

/-- All built-in names pushed under the API_TOOL_TAG branch of the
ListTools handler, in push order: storage, variables, schedules,
processes, executions, modules. -/
def apiToolDefinitionNames : List String :=
  storageToolDefinitionNames ++ variablesToolDefinitionNames ++
  schedulesToolDefinitionNames ++ processesToolDefinitionNames ++
  executionsToolDefinitionNames ++ modulesToolDefinitionNames

/-- Derived tool name for one process (ListTools handler): the slug,
unless it is longer than 60 characters, in which case the reserved
prelude followed by the process id. -/
def processToolName (process : Process) : String :=
  if process.slug.length > 60 then RUN_PROCESS_TOOL_NAME_START ++ process.id
  else process.slug

/-- Modelled from the spec: the remote getProcesses listing (a capability
of the external API client, not part of this repository's sources) with a
tags filter returns exactly the processes having at least one tag in the
configured tag set. The ListTools handler forwards its tools selection as
this filter. Pagination is flattened: the concatenation of all pages. -/
def getProcessesByTags (allProcesses : List Process) (tags : List String) :
    List Process :=
  allProcesses.filter (fun p => p.tags.any (fun t => tags.contains t))

/-- Built-in portion of the catalog produced by the ListTools handler for
a given tools selection. -/
def builtinCatalogNames (tools : List String) : List String :=
  (if tools.contains API_TOOL_TAG then apiToolDefinitionNames else []) ++
  (if tools.contains RUN_CODE_TOOL_TAG then [runCodeToolName] else [])

/-- Names of the full catalog returned by one ListTools request: built-in
tools for the enabled groups followed by one tool per process returned by
the tag-filtered remote listing. -/
def listToolsNames (tools : List String) (allProcesses : List Process) :
    List String :=
  builtinCatalogNames tools ++
  (getProcessesByTags allProcesses tools).map processToolName

/-- Constructor default for the tools selection (src/server.ts):
an absent option falls back to DEFAULT_TOOL_TAGS. -/
def serverTools (toolsOpt : Option (List String)) : List String :=
  toolsOpt.getD DEFAULT_TOOL_TAGS

/-- Entry-point parsing of the YEPCODE_MCP_TOOLS environment variable
(src/index.ts): absent leaves the selection undefined; present, it is
split on commas and trimmed. -/
def mcpToolsFromEnv (envValue : Option String) : Option (List String) :=
  envValue.map (fun s => (s.splitOn ",").map String.trim)

/-- MCP protocol error codes used by the dispatcher. -/
inductive ErrorCode where
  | invalidParams : ErrorCode
  | methodNotFound : ErrorCode
  | internalError : ErrorCode
deriving DecidableEq

/-- An McpError raised (thrown) to the transport, terminating the request
at protocol level. -/
structure McpError where
  code : ErrorCode
  message : String

/-- One entry of a result envelope's content array. Its text slot holds
the JSON payload whose JSON.stringify rendering the source places there;
serialization is modelled as the identity on the payload. -/
structure ContentItem where
  type : String
  text : Json

/-- The uniform result envelope returned by handleToolRequest. -/
structure ToolResult where
  isError : Bool
  content : List ContentItem

/-- An incoming call-tool request: a name and untyped arguments (none
models absent/undefined arguments). -/
structure ToolCallRequest where
  name : String
  arguments : Option Json

/-- handleToolRequest (src/server.ts): validate the arguments against the
tool's schema; a validation failure throws an invalid-params McpError
before the handler runs; a handler exception is caught and converted to
an isError envelope carrying the JSON of an object with one error field;
handler success is wrapped into a non-error envelope. Schemas are
embedded as partial parsing functions and handler exceptions as the
error branch of Except, carrying the exception message. -/
def handleToolRequest {T : Type} (schema : Option Json → Option T)
    (request : ToolCallRequest) (handler : T → Except String Json) :
    Except McpError ToolResult :=
  match schema request.arguments with
  | none =>
      Except.error { code := ErrorCode.invalidParams,
                     message := "Invalid request arguments" }
  | some data =>
      match handler data with
      | Except.ok result =>
          Except.ok { isError := false,
                      content := [{ type := "text", text := result }] }
      | Except.error errorMessage =>
          Except.ok { isError := true,
                      content := [{ type := "text",
                                    text := Json.obj
                                      [("error", Json.str errorMessage)] }] }

/-- A remote execution handle after waitForDone: the fields the resolver
reads back (logs, processId, status, timeline, returnValue, error). The
remote system alone populates them; returnValue and error may be
undefined (none). -/
structure Execution where
  logs : List Log
  processId : String
  status : String
  timeline : List Json
  returnValue : Option Json
  error : Option String

/-- executionResult (src/server.ts): assemble the normalized result of a
finished execution. The returnValue and error keys are spliced in by the
JavaScript spread-with-guard idiom, hence only when truthy. -/
def executionResult (executionId : String) (execution : Execution) : Json :=
  Json.obj
    ([("executionId", Json.str executionId),
      ("logs", Json.arr (execution.logs.map Log.toJson)),
      ("processId", Json.str execution.processId),
      ("status", Json.str execution.status),
      ("timeline", Json.arr execution.timeline)] ++
     (match execution.returnValue with
      | some v => if v.truthy then [("returnValue", v)] else []
      | none => []) ++
     (match execution.error with
      | some e => if e != "" then [("error", Json.str e)] else []
      | none => []))

/-- The options object of RunProcessSchema
(src/tools/run-code-tool-definitinos.ts): optional version tag and
comment. -/
structure RunProcessOptions where
  tag : Option String
  comment : Option String

/-- Arguments of a process-derived tool call after validation against
RunProcessSchema: optional parameters, optional options, and
synchronousExecution defaulted to true by the schema. -/
structure RunProcessData where
  parameters : Option Json
  options : Option RunProcessOptions
  synchronousExecution : Bool

/-- Parse one optional string field the way z.string().optional() does:
an absent key succeeds with none, a string succeeds, anything else
fails. -/
def parseOptionalStringField (v : Option Json) : Option (Option String) :=
  match v with
  | none => some none
  | some (Json.str s) => some (some s)
  | some _ => none

/-- Parse the optional options object of RunProcessSchema. -/
def parseRunProcessOptions (v : Option Json) : Option (Option RunProcessOptions) :=
  match v with
  | none => some none
  | some (Json.obj fields) =>
      match parseOptionalStringField (lookupField fields "tag"),
            parseOptionalStringField (lookupField fields "comment") with
      | some tag, some comment => some (some { tag := tag, comment := comment })
      | _, _ => none
  | some _ => none

/-- RunProcessSchema.safeParse: the arguments must be an object;
parameters is z.any().optional(); options is the optional object above;
synchronousExecution is z.boolean().optional().default(true), so an
absent key becomes true and a non-boolean value fails. -/
def parseRunProcess (args : Option Json) : Option RunProcessData :=
  match args with
  | some (Json.obj fields) =>
      match parseRunProcessOptions (lookupField fields "options") with
      | none => none
      | some options =>
          match lookupField fields "synchronousExecution" with
          | none =>
              some { parameters := lookupField fields "parameters",
                     options := options, synchronousExecution := true }
          | some (Json.bool b) =>
              some { parameters := lookupField fields "parameters",
                     options := options, synchronousExecution := b }
          | some _ => none
  | _ => none

/-- The external API client collaborator (§6 of the spec), embedded as
abstract capability functions: executeProcessAsync submits a process
execution and yields an execution id or fails, and executions models
constructing an Execution handle from an id and awaiting waitForDone,
yielding the terminal snapshot or failing. -/
structure YepCodeApi where
  executeProcessAsync : String → Option Json → Except String String
  executions : String → Except String Execution

/-- The resolver step of the server: build an Execution handle for the
id, await completion, and assemble the normalized result (throwing
failures onward). -/
def executionResultOf (api : YepCodeApi) (executionId : String) :
    Except String Json :=
  match api.executions executionId with
  | Except.error e => Except.error e
  | Except.ok execution => Except.ok (executionResult executionId execution)

/-- The inline handler of the process-tool branch of the CallTool
dispatcher (src/server.ts): submit via executeProcessAsync; when the
caller set synchronousExecution to false, return the execution id alone;
otherwise delegate to the execution-result resolver. -/
def runProcessHandler (api : YepCodeApi) (processId : String)
    (data : RunProcessData) : Except String Json :=
  match api.executeProcessAsync processId data.parameters with
  | Except.error e => Except.error e
  | Except.ok executionId =>
      if data.synchronousExecution = false then
        Except.ok (Json.obj [("executionId", Json.str executionId)])
      else
        executionResultOf api executionId

/-- One callback notification from the code-run primitive during a
run_code call: onLog with a log entry, onError with an error message, or
onFinish with a possibly-undefined return value. -/
inductive RunEvent where
  | log (entry : Log) : RunEvent
  | error (message : String) : RunEvent
  | finish (value : Option Json) : RunEvent

/-- The three captured variables of the run_code handler, mutated from
the callbacks: the accumulated logs array, the last error message, and
the return value. -/
structure RunCallbacksState where
  logs : List Log
  executionError : Option String
  returnValue : Option Json

/-- Effect of one callback on the captured variables: onLog pushes,
onError assigns the message, onFinish assigns the value. -/
def applyRunEvent (s : RunCallbacksState) : RunEvent → RunCallbacksState
  | RunEvent.log entry => { s with logs := s.logs ++ [entry] }
  | RunEvent.error message => { s with executionError := some message }
  | RunEvent.finish value => { s with returnValue := value }

/-- State of the captured variables after the remote run delivered its
callback notifications in emission order. -/
def runCallbacks (events : List RunEvent) : RunCallbacksState :=
  events.foldl applyRunEvent
    { logs := [], executionError := none, returnValue := none }

/-- Options accepted by RunCodeSchema's options object
(src/tools/run-code-tool-definitinos.ts): language, removeOnDone,
comment, manifest and parameters, all optional. -/
structure RunCodeOptions where
  language : Option String
  removeOnDone : Option Bool
  comment : Option String
  manifest : Option Json
  parameters : Option Json

/-- Arguments of run_code after validation against RunCodeSchema:
the code string and the options object. -/
structure RunCodeData where
  code : String
  options : RunCodeOptions

/-- RunCodeSchema.safeParse: an object with a string code field and an
options object whose optional fields are typed as in the source schema. -/
def parseRunCode (args : Option Json) : Option RunCodeData :=
  match args with
  | some (Json.obj fields) =>
      match lookupField fields "code", lookupField fields "options" with
      | some (Json.str code), some (Json.obj optionFields) =>
          match parseOptionalStringField (lookupField optionFields "language"),
                parseOptionalStringField (lookupField optionFields "comment") with
          | some language, some comment =>
              match lookupField optionFields "removeOnDone" with
              | some (Json.bool b) =>
                  some { code := code,
                         options := { language := language,
                                      removeOnDone := some b,
                                      comment := comment,
                                      manifest := lookupField optionFields "manifest",
                                      parameters := lookupField optionFields "parameters" } }
              | none =>
                  some { code := code,
                         options := { language := language,
                                      removeOnDone := none,
                                      comment := comment,
                                      manifest := lookupField optionFields "manifest",
                                      parameters := lookupField optionFields "parameters" } }
              | some _ => none
          | _, _ => none
      | _, _ => none
  | _ => none

/-- The code-run primitive of the external collaborator: submitting a
piece of code yields the sequence of callback notifications the remote
system emits for it, in emission order. -/
structure YepCodeRun where
  runEvents : String → List RunEvent

/-- The inline handler of the run_code case of the CallTool dispatcher
(src/server.ts): run the code, let the callbacks populate the captured
variables, and return an object with the logs, the return value (a key
JSON.stringify drops again when it stayed undefined), and an error key
spliced in only when the captured error message is truthy. -/
def runCodeHandler (run : YepCodeRun) (data : RunCodeData) :
    Except String Json :=
  let s := runCallbacks (run.runEvents data.code)
  Except.ok (Json.obj
    ([("logs", Json.arr (s.logs.map Log.toJson))] ++
     (match s.returnValue with
      | some v => [("returnValue", v)]
      | none => []) ++
     (match s.executionError with
      | some m => if m != "" then [("error", Json.str m)] else []
      | none => [])))

/-- The case labels of the built-in switch of the CallTool dispatcher
(src/server.ts), in source order: the run_code case followed by the
variables, storage, schedules, processes, executions and modules cases. -/
def builtinSwitchNames : List String :=
  ["run_code",
   "get_variables", "create_variable", "update_variable", "delete_variable",
   "get_storage_objects", "upload_storage_object", "download_storage_object",
   "delete_storage_object",
   "get_schedules", "get_schedule", "pause_schedule", "resume_schedule",
   "delete_schedule",
   "get_processes", "create_process", "get_process", "update_process",
   "delete_process", "get_process_versions", "execute_process_async",
   "execute_process_sync", "schedule_process",
   "get_executions", "get_execution", "kill_execution", "rerun_execution",
   "get_execution_logs",
   "get_modules", "create_module", "get_module", "delete_module",
   "get_module_versions", "get_module_version", "delete_module_version",
   "get_module_aliases"]

/-- The server state the CallTool dispatcher consults: the tools
selection, the run-code cleanup flag, the two collaborator handles, and
the built-in API cases of the switch other than run_code, each of which
is a handleToolRequest with that tool's schema and API-calling handler;
no claim depends on their internals, so they are abstracted into one
function consulted only when the request name is one of their case
labels. -/
structure YepCodeMcpServerState where
  tools : List String
  runCodeCleanup : Bool
  yepCodeRun : YepCodeRun
  yepCodeApi : YepCodeApi
  builtinApiCase : ToolCallRequest → Except McpError ToolResult

/-- JavaScript String.prototype.startsWith, embedded structurally over
character lists. -/
def stringStartsWith (s pre : String) : Bool := pre.data.isPrefixOf s.data

/-- The CallTool dispatcher (src/server.ts): a name beginning with the
reserved prelude is routed to the process execution handler with the
remainder of the name as process id (the source's replace of the first
occurrence, which under the begins-with guard drops the prelude);
otherwise the name is matched against the built-in switch, whose
run_code case first throws method-not-found when the run_code group is
disabled; an unmatched name falls to the default case, which throws a
method-not-found McpError. -/
def dispatchCallTool (server : YepCodeMcpServerState)
    (request : ToolCallRequest) : Except McpError ToolResult :=
  if stringStartsWith request.name RUN_PROCESS_TOOL_NAME_START then
    let processId := request.name.drop RUN_PROCESS_TOOL_NAME_START.length
    handleToolRequest parseRunProcess request
      (runProcessHandler server.yepCodeApi processId)
  else if request.name = runCodeToolName then
    if server.tools.contains RUN_CODE_TOOL_TAG then
      handleToolRequest parseRunCode request (runCodeHandler server.yepCodeRun)
    else
      Except.error { code := ErrorCode.methodNotFound,
                     message := "Run code tool is disabled" }
  else if builtinSwitchNames.contains request.name then
    server.builtinApiCase request
  else
    Except.error { code := ErrorCode.methodNotFound,
                   message := "Unknown tool: " ++ request.name }

/-- JavaScript truthiness of a possibly-undefined string, as consulted
for the error field of an execution. -/
def jsStrTruthy : Option String → Bool
  | none => false
  | some s => s != ""

/-- Concrete process used in scenarios: tagged with the opt-in tag, with
a short slug that does not begin with the reserved prelude. -/
def processP : Process :=
  { id := "a1b2", slug := "my-daily-report", name := "My daily report",
    description := none, tags := [RUN_PROCESS_TOOL_TAG],
    parametersSchema := none }

/-- Concrete process whose tags match no default selection tag. -/
def processQ : Process :=
  { id := "c3d4", slug := "billing-export", name := "Billing export",
    description := none, tags := ["billing"], parametersSchema := none }

/-- Concrete process whose slug exceeds 60 characters and whose opaque id
is 58 characters long. -/
def longSlugProcess : Process :=
  { id := String.mk (List.replicate 58 'b'),
    slug := String.mk (List.replicate 61 'a'),
    name := "Long", description := none, tags := [RUN_PROCESS_TOOL_TAG],
    parametersSchema := none }

/-- Two distinct processes sharing one slug. -/
def dupProcessA : Process :=
  { id := "idA", slug := "dup-proc", name := "Dup A", description := none,
    tags := [RUN_PROCESS_TOOL_TAG], parametersSchema := none }

/-- See dupProcessA. -/
def dupProcessB : Process :=
  { id := "idB", slug := "dup-proc", name := "Dup B", description := none,
    tags := [RUN_PROCESS_TOOL_TAG], parametersSchema := none }

/-- Collaborator whose process submission fails (e.g. the remote rejects
an unknown process identifier). -/
def apiFailing : YepCodeApi :=
  { executeProcessAsync := fun _ _ => Except.error "Process not found",
    executions := fun _ => Except.error "Execution not found" }

/-- Concrete terminal execution snapshot. -/
def executionW : Execution :=
  { logs := [{ timestamp := "t1", level := "INFO", message := "started" }],
    processId := "a1b2", status := "FINISHED",
    timeline := [Json.obj [("status", Json.str "FINISHED")]],
    returnValue := some (Json.num 42), error := none }

/-- Collaborator whose process submission yields execution exec-1 and
whose execution handle resolves to executionW. -/
def apiOk : YepCodeApi :=
  { executeProcessAsync := fun _ _ => Except.ok "exec-1",
    executions := fun _ => Except.ok executionW }

/-- Code-run collaborator that emits no callbacks. -/
def yepCodeRunIdle : YepCodeRun := { runEvents := fun _ => [] }

/-- Two concrete log entries. -/
def logW1 : Log := { timestamp := "t1", level := "INFO", message := "first" }

/-- See logW1. -/
def logW2 : Log := { timestamp := "t2", level := "INFO", message := "second" }

/-- Code-run collaborator emitting two log lines and then the terminal
success callback carrying 42. -/
def yepCodeRunW : YepCodeRun :=
  { runEvents := fun _ =>
      [RunEvent.log logW1, RunEvent.log logW2,
       RunEvent.finish (some (Json.num 42))] }

/-- Server state with the constructor-default tools selection and the
failing collaborator. The abstract built-in cases are never consulted by
the scenarios below. -/
def defaultServer : YepCodeMcpServerState :=
  { tools := DEFAULT_TOOL_TAGS, runCodeCleanup := false,
    yepCodeRun := yepCodeRunIdle, yepCodeApi := apiFailing,
    builtinApiCase := fun _ =>
      Except.error { code := ErrorCode.internalError, message := "unreachable" } }

/-- C1: failing-input evaluation. The process with slug my-daily-report
carries the opt-in tag, so the catalog of the default configuration
exposes a tool named by its slug (at most 60 characters, not beginning
with the reserved prelude); yet dispatching a call-tool request with
exactly that name reaches the default switch case and throws a
method-not-found unknown-tool error instead of routing to the process
execution handler, contradicting the claim that slug-named
process-derived tools from the last catalog build are routed to it. -/
theorem slug_named_process_tool_call_yields_method_not_found :
    processToolName processP = "my-daily-report" ∧
    processToolName processP ∈ listToolsNames defaultServer.tools [processP] ∧
    ("my-daily-report").length ≤ 60 ∧
    stringStartsWith "my-daily-report" RUN_PROCESS_TOOL_NAME_START = false ∧
    dispatchCallTool defaultServer
      { name := "my-daily-report", arguments := some (Json.obj []) } =
      Except.error { code := ErrorCode.methodNotFound,
                     message := "Unknown tool: my-daily-report" } := by
  refine ⟨rfl, by decide, by decide, by decide, rfl⟩

/-- C2: counterexample. The name yc_ghost matches no catalog tool (it is
neither a built-in name nor a process-derived name), yet because it
begins with the reserved prelude the dispatcher routes it to the process
execution handler, whose failing remote submission is caught and
returned as a handler-error envelope with isError true — not a
method-not-found protocol error as the claim requires for all unknown
names. -/
theorem unknown_prefixed_name_yields_error_envelope :
    stringStartsWith "yc_ghost" RUN_PROCESS_TOOL_NAME_START = true ∧
    "yc_ghost" ∉ listToolsNames defaultServer.tools [processP] ∧
    "yc_ghost" ∉ builtinSwitchNames ∧
    dispatchCallTool defaultServer
      { name := "yc_ghost", arguments := some (Json.obj []) } =
      Except.ok { isError := true,
                  content := [{ type := "text",
                                text := Json.obj
                                  [("error", Json.str "Process not found")] }] } := by
  refine ⟨rfl, by decide, by decide, rfl⟩

/-- C2 (amended): a call-tool request whose name does not begin with the
reserved process-tool prelude and matches none of the built-in switch
case labels always makes the dispatcher throw the method-not-found
unknown-tool protocol error — it never produces a result envelope. -/
theorem unknown_unprefixed_name_method_not_found
    (server : YepCodeMcpServerState) (request : ToolCallRequest)
    (hpre : stringStartsWith request.name RUN_PROCESS_TOOL_NAME_START = false)
    (hbuiltin : request.name ∉ builtinSwitchNames) :
    dispatchCallTool server request =
      Except.error { code := ErrorCode.methodNotFound,
                     message := "Unknown tool: " ++ request.name } := by
  have hrc : request.name ≠ runCodeToolName := by
    intro h
    exact hbuiltin (by rw [h]; decide)
  unfold dispatchCallTool
  rw [hpre]
  simp [hrc, hbuiltin]

/-- C2 (amended) witness: the unknown unprefixed name mystery-tool gets
the method-not-found protocol error. -/
theorem unknown_unprefixed_name_method_not_found_witness :
    dispatchCallTool defaultServer { name := "mystery-tool", arguments := none } =
      Except.error { code := ErrorCode.methodNotFound,
                     message := "Unknown tool: " ++ "mystery-tool" } :=
  unknown_unprefixed_name_method_not_found defaultServer
    { name := "mystery-tool", arguments := none } (by decide) (by decide)

/-- C3: counterexample. With the tool-selection variable absent, the
selection defaults to DEFAULT_TOOL_TAGS, which excludes the API
management group: get_variables, a tool of that group, is missing from
the catalog, so not all built-in groups are enabled; and the catalog of
a deployment whose remote holds a process tagged with the opt-in tag
contains that process's derived tool, so the catalog does not hold zero
process-derived tools. -/
theorem default_config_catalog_counterexample :
    serverTools (mcpToolsFromEnv none) = DEFAULT_TOOL_TAGS ∧
    listToolsNames (serverTools (mcpToolsFromEnv none)) [processP] =
      [runCodeToolName, "my-daily-report"] ∧
    "get_variables" ∈ apiToolDefinitionNames ∧
    "get_variables" ∉ listToolsNames (serverTools (mcpToolsFromEnv none)) [processP] ∧
    processToolName processP ∈
      listToolsNames (serverTools (mcpToolsFromEnv none)) [processP] := by
  refine ⟨rfl, rfl, by decide, by decide, by decide⟩

/-- C3 (amended): when the tool-selection variable is absent the
selection defaults to the run_code group plus the process opt-in tag
(not the API group), and the catalog consists of the run_code tool
alone — zero process-derived tools — whenever no remote process carries
one of the default tags. -/
theorem default_config_run_code_only_catalog (allProcesses : List Process)
    (hno : ∀ p ∈ allProcesses, ∀ t ∈ p.tags, t ∉ DEFAULT_TOOL_TAGS) :
    serverTools (mcpToolsFromEnv none) = DEFAULT_TOOL_TAGS ∧
    listToolsNames DEFAULT_TOOL_TAGS allProcesses = [runCodeToolName] := by
  refine ⟨rfl, ?_⟩
  unfold listToolsNames getProcessesByTags
  have hf : allProcesses.filter
      (fun p => p.tags.any (fun t => DEFAULT_TOOL_TAGS.contains t)) = [] := by
    rw [List.filter_eq_nil_iff]
    intro p hp
    simpa using hno p hp
  rw [hf]
  rfl

/-- C3 (amended) witness: with only a process tagged billing on the
remote, the default-configuration catalog is exactly the run_code
tool. -/
theorem default_config_run_code_only_catalog_witness :
    serverTools (mcpToolsFromEnv none) = DEFAULT_TOOL_TAGS ∧
    listToolsNames DEFAULT_TOOL_TAGS [processQ] = [runCodeToolName] :=
  default_config_run_code_only_catalog [processQ] (by decide)

/-- C4: counterexample. A process whose slug is 61 characters long takes
the id-based fallback name, but with a 58-character opaque id the
fallback itself is 61 characters long, violating the claimed unconditional
60-character bound on exposed tool names. -/
theorem long_id_fallback_exceeds_limit :
    processToolName longSlugProcess =
      RUN_PROCESS_TOOL_NAME_START ++ longSlugProcess.id ∧
    60 < (processToolName longSlugProcess).length := by
  constructor
  · rfl
  · decide

/-- C4 (amended): the exposed name is the slug when it is at most 60
characters and the prelude plus the opaque id otherwise; the 60-character
bound holds for every process whose opaque id is at most 57 characters
long (the code never re-checks the fallback's length). -/
theorem processToolName_choice_and_bound (p : Process)
    (hid : p.id.length ≤ 57) :
    (60 < p.slug.length →
        processToolName p = RUN_PROCESS_TOOL_NAME_START ++ p.id)
  ∧ (p.slug.length ≤ 60 → processToolName p = p.slug)
  ∧ (processToolName p).length ≤ 60 := by
  by_cases h : p.slug.length > 60
  · have he : processToolName p = RUN_PROCESS_TOOL_NAME_START ++ p.id := by
      unfold processToolName
      rw [if_pos h]
    refine ⟨fun _ => he, fun hle => absurd h (by omega), ?_⟩
    rw [he, String.length_append]
    have h3 : RUN_PROCESS_TOOL_NAME_START.length = 3 := rfl
    omega
  · have he : processToolName p = p.slug := by
      unfold processToolName
      rw [if_neg h]
    refine ⟨fun hgt => absurd hgt h, fun _ => he, ?_⟩
    rw [he]
    omega

/-- C4 (amended) witness: processP has a short id, so its exposed name
respects the 60-character bound. -/
theorem processToolName_choice_and_bound_witness :
    processP.id.length ≤ 57 ∧ (processToolName processP).length ≤ 60 :=
  ⟨by decide, (processToolName_choice_and_bound processP (by decide)).2.2⟩

/-- C5: counterexample. Two remote processes sharing the slug dup-proc
both qualify under the default selection, and the catalog lists the
derived name twice — the ListTools handler performs no deduplication, so
catalog names are not pairwise distinct for every configuration. -/
theorem duplicate_slugs_duplicate_catalog :
    listToolsNames DEFAULT_TOOL_TAGS [dupProcessA, dupProcessB] =
      [runCodeToolName, "dup-proc", "dup-proc"] ∧
    ¬ (listToolsNames DEFAULT_TOOL_TAGS [dupProcessA, dupProcessB]).Nodup := by
  constructor
  · rfl
  · decide

/-- C5 (amended): for every configuration the built-in portion of the
catalog has pairwise-distinct names, and the whole catalog is
duplicate-free provided the derived process-tool names are pairwise
distinct and disjoint from the built-in names (the code itself never
deduplicates). -/
theorem catalog_nodup_of_distinct_process_names (tools : List String)
    (allProcesses : List Process)
    (hproc : ((getProcessesByTags allProcesses tools).map processToolName).Nodup)
    (hdisj : ∀ n ∈ (getProcessesByTags allProcesses tools).map processToolName,
        n ∉ builtinCatalogNames tools) :
    (builtinCatalogNames tools).Nodup ∧
    (listToolsNames tools allProcesses).Nodup := by
  have hb : (builtinCatalogNames tools).Nodup := by
    unfold builtinCatalogNames
    by_cases h1 : API_TOOL_TAG ∈ tools <;>
      by_cases h2 : RUN_CODE_TOOL_TAG ∈ tools <;>
        simp [h1, h2] <;> decide
  refine ⟨hb, ?_⟩
  unfold listToolsNames
  refine List.Nodup.append hb hproc ?_
  intro a ha hmem
  exact hdisj a hmem ha

/-- C5 (amended) witness: the default configuration over one opt-in
process yields a duplicate-free catalog. -/
theorem catalog_nodup_of_distinct_process_names_witness :
    (builtinCatalogNames DEFAULT_TOOL_TAGS).Nodup ∧
    (listToolsNames DEFAULT_TOOL_TAGS [processP]).Nodup :=
  catalog_nodup_of_distinct_process_names DEFAULT_TOOL_TAGS [processP]
    (by decide) (by decide)

/-- Helper: folding the callback transition over a run of log events
appends exactly those entries, in order, to the accumulated logs and
touches nothing else. -/
theorem foldl_applyRunEvent_logs (entries : List Log) (s : RunCallbacksState) :
    List.foldl applyRunEvent s (entries.map RunEvent.log) =
      { s with logs := s.logs ++ entries } := by
  induction entries generalizing s with
  | nil => simp
  | cons e es ih =>
      simp only [List.map_cons, List.foldl_cons, applyRunEvent, ih,
        List.append_assoc, List.singleton_append]

/-- C6: a run_code call whose remote execution emits the log entries in
order and then terminates successfully with return value v yields a
payload whose logs field lists exactly those entries in emission order
and whose returnValue field is v, with no error key present. -/
theorem run_code_success_roundtrip (run : YepCodeRun) (data : RunCodeData)
    (entries : List Log) (v : Json)
    (hevents : run.runEvents data.code =
      entries.map RunEvent.log ++ [RunEvent.finish (some v)]) :
    runCodeHandler run data =
      Except.ok (Json.obj [("logs", Json.arr (entries.map Log.toJson)),
                           ("returnValue", v)]) ∧
    (Json.obj [("logs", Json.arr (entries.map Log.toJson)),
               ("returnValue", v)]).hasKey "error" = false := by
  have hstate : runCallbacks (run.runEvents data.code) =
      { logs := entries, executionError := none, returnValue := some v } := by
    rw [hevents]
    unfold runCallbacks
    rw [List.foldl_append, foldl_applyRunEvent_logs]
    simp [applyRunEvent]
  constructor
  · unfold runCodeHandler
    rw [hstate]
    rfl
  · simp [Json.hasKey]

/-- C6 witness: a run emitting two log lines and finishing with 42
produces exactly those logs in order and returnValue 42. -/
theorem run_code_success_roundtrip_witness :
    runCodeHandler yepCodeRunW
      { code := "return 42",
        options := { language := none, removeOnDone := none, comment := none,
                     manifest := none, parameters := none } } =
      Except.ok (Json.obj
        [("logs", Json.arr [Log.toJson logW1, Log.toJson logW2]),
         ("returnValue", Json.num 42)]) :=
  (run_code_success_roundtrip yepCodeRunW
    { code := "return 42",
      options := { language := none, removeOnDone := none, comment := none,
                   manifest := none, parameters := none } }
    [logW1, logW2] (Json.num 42) rfl).1

/-- C7: a process-derived tool call with synchronousExecution false
returns the execution id alone, independently of the execution-result
resolver (any collaborator agreeing on submission gives the same
answer); with synchronousExecution true it returns the resolver's
snapshot, whose payload opens with the executionId, logs, processId,
status and timeline fields; and schema validation defaults an absent
synchronousExecution field to true. -/
theorem process_tool_sync_async_semantics (api api2 : YepCodeApi)
    (processId executionId : String) (data : RunProcessData)
    (execution : Execution)
    (hsubmit : api.executeProcessAsync processId data.parameters =
      Except.ok executionId) :
    (data.synchronousExecution = false →
      api2.executeProcessAsync = api.executeProcessAsync →
      runProcessHandler api2 processId data =
        Except.ok (Json.obj [("executionId", Json.str executionId)]))
  ∧ (data.synchronousExecution = true →
      api.executions executionId = Except.ok execution →
      runProcessHandler api processId data =
        Except.ok (executionResult executionId execution))
  ∧ (∀ fields opts,
      parseRunProcessOptions (lookupField fields "options") = some opts →
      lookupField fields "synchronousExecution" = none →
      parseRunProcess (some (Json.obj fields)) =
        some { parameters := lookupField fields "parameters",
               options := opts, synchronousExecution := true })
  ∧ (∃ tail, executionResult executionId execution = Json.obj
      ([("executionId", Json.str executionId),
        ("logs", Json.arr (execution.logs.map Log.toJson)),
        ("processId", Json.str execution.processId),
        ("status", Json.str execution.status),
        ("timeline", Json.arr execution.timeline)] ++ tail)) := by
  refine ⟨?_, ?_, ?_, ?_⟩
  · intro hasync heq
    unfold runProcessHandler
    rw [heq, hsubmit, hasync]
    rfl
  · intro hsync hres
    unfold runProcessHandler executionResultOf
    rw [hsubmit]
    simp [hsync, hres]
  · intro fields opts hopts hsync
    simp [parseRunProcess, hopts, hsync]
  · exact ⟨_, rfl⟩

/-- C7 witness: against a collaborator that accepts the submission as
exec-1 and resolves it to a finished snapshot, the asynchronous call
returns the id alone and the synchronous call returns the snapshot. -/
theorem process_tool_sync_async_semantics_witness :
    (runProcessHandler apiOk "a1b2"
      { parameters := none, options := none, synchronousExecution := false } =
      Except.ok (Json.obj [("executionId", Json.str "exec-1")]))
  ∧ (runProcessHandler apiOk "a1b2"
      { parameters := none, options := none, synchronousExecution := true } =
      Except.ok (executionResult "exec-1" executionW)) :=
  ⟨(process_tool_sync_async_semantics apiOk apiOk "a1b2" "exec-1"
      { parameters := none, options := none, synchronousExecution := false }
      executionW rfl).1 rfl rfl,
   (process_tool_sync_async_semantics apiOk apiOk "a1b2" "exec-1"
      { parameters := none, options := none, synchronousExecution := true }
      executionW rfl).2.1 rfl rfl⟩

/-- C8: when validation succeeded and the handler throws, the dispatcher
catches the exception and returns (not throws) an envelope with isError
true whose single text item carries the JSON of an object holding the
exception message under the error key. -/
theorem handler_exception_caught_envelope {T : Type}
    (schema : Option Json → Option T) (request : ToolCallRequest)
    (handler : T → Except String Json) (data : T) (message : String)
    (hparse : schema request.arguments = some data)
    (hthrow : handler data = Except.error message) :
    handleToolRequest schema request handler =
      Except.ok { isError := true,
                  content := [{ type := "text",
                                text := Json.obj
                                  [("error", Json.str message)] }] } := by
  simp [handleToolRequest, hparse, hthrow]

/-- C8 witness: a process-tool handler whose remote submission fails is
caught into the error envelope. -/
theorem handler_exception_caught_envelope_witness :
    handleToolRequest parseRunProcess
      { name := "yc_ghost", arguments := some (Json.obj []) }
      (runProcessHandler apiFailing "ghost") =
      Except.ok { isError := true,
                  content := [{ type := "text",
                                text := Json.obj
                                  [("error", Json.str "Process not found")] }] } :=
  handler_exception_caught_envelope parseRunProcess
    { name := "yc_ghost", arguments := some (Json.obj []) }
    (runProcessHandler apiFailing "ghost")
    { parameters := none, options := none, synchronousExecution := true }
    "Process not found" rfl rfl

/-- C9: when schema validation of the arguments fails, the dispatcher
throws the invalid-params protocol error, and the outcome is the same
for every handler — the handler is never invoked. -/
theorem invalid_arguments_rejected_before_handler {T : Type}
    (schema : Option Json → Option T) (request : ToolCallRequest)
    (hparse : schema request.arguments = none) :
    ∀ handler : T → Except String Json,
      handleToolRequest schema request handler =
        Except.error { code := ErrorCode.invalidParams,
                       message := "Invalid request arguments" } := by
  intro handler
  simp [handleToolRequest, hparse]

/-- C9 witness: absent arguments fail RunProcessSchema validation and
yield the invalid-params protocol error. -/
theorem invalid_arguments_rejected_before_handler_witness :
    handleToolRequest parseRunProcess
      { name := "yc_ghost", arguments := none }
      (runProcessHandler apiFailing "ghost") =
      Except.error { code := ErrorCode.invalidParams,
                     message := "Invalid request arguments" } :=
  invalid_arguments_rejected_before_handler parseRunProcess
    { name := "yc_ghost", arguments := none } rfl
    (runProcessHandler apiFailing "ghost")

/-- C10: the resolver's payload carries the returnValue key exactly when
the execution's return value is truthy and the error key exactly when
its error is truthy; in particular a successful execution returning
false, 0, the empty string or null yields a payload with no returnValue
key at all. -/
theorem executionResult_optional_keys (executionId : String) (execution : Execution) :
    ((executionResult executionId execution).hasKey "returnValue"
        = jsTruthy execution.returnValue)
  ∧ ((executionResult executionId execution).hasKey "error"
        = jsStrTruthy execution.error)
  ∧ ((executionResult executionId
        { execution with returnValue := some (Json.bool false) }).hasKey
          "returnValue" = false)
  ∧ ((executionResult executionId
        { execution with returnValue := some (Json.num 0) }).hasKey
          "returnValue" = false)
  ∧ ((executionResult executionId
        { execution with returnValue := some (Json.str "") }).hasKey
          "returnValue" = false)
  ∧ ((executionResult executionId
        { execution with returnValue := some Json.null }).hasKey
          "returnValue" = false) := by
  refine ⟨?_, ?_, ?_, ?_, ?_, ?_⟩
  · unfold executionResult Json.hasKey
    cases hrv : execution.returnValue with
    | none => cases herr : execution.error <;>
        simp [List.any_append, jsTruthy, Json.truthy]
    | some v => cases herr : execution.error <;> cases htv : v.truthy <;>
        simp [List.any_append, jsTruthy, htv]
  · unfold executionResult Json.hasKey
    cases hrv : execution.returnValue with
    | none =>
        cases herr : execution.error with
        | none => simp [List.any_append, jsStrTruthy]
        | some e => by_cases he : e = "" <;>
            simp [List.any_append, jsStrTruthy, he]
    | some v =>
        cases herr : execution.error with
        | none => cases htv : v.truthy <;>
            simp [List.any_append, jsStrTruthy, htv]
        | some e => cases htv : v.truthy <;> by_cases he : e = "" <;>
            simp [List.any_append, jsStrTruthy, htv, he]
  all_goals unfold executionResult Json.hasKey
  all_goals cases herr : execution.error <;>
    simp [List.any_append, Json.truthy]
